import Mathlib

/-!
Verification development for the LogVoyant core: a shallow embedding of the
storage layer (`internal/storage`), the fallback analyzer
(`internal/analyzer/fallback.go`), the analyzer orchestration
(`internal/analyzer/analyzer.go`), the resolve HTTP handler
(`internal/server/handlers.go`) and the WebSocket hub
(`internal/server/websocket.go`), together with theorems settling the
behavioural claims about them.

Modelling conventions:
* Bolt buckets are ordered key-value tables; they are embedded as association
  lists sorted in strictly ascending byte order of the key, with `Put` as an
  ordered insert-or-replace and `Cursor` traversal as list traversal.  Inside
  an open write transaction, `Stats().KeyN` walks committed pages only — the
  transaction's own `Put`s live in in-memory nodes and are not counted — so it
  is embedded as the length of the bucket as committed at the call's entry,
  not the length after the call's inserts.  The bucket's ordered content is
  viewed as one ordered node, so `bucket.Delete` of the key under a cursor
  shifts the following entries down onto the cursor's index and the
  subsequent `Cursor.Next` skips one surviving entry.
* Keys are byte strings, embedded as `List Nat`.
* `time.Time` is embedded as seconds plus nanoseconds (`GoTime`).  The
  RFC3339Nano rendering used for log keys keeps the calendar portion abstract
  as a 19-digit zero-padded decimal seconds count, which is order-isomorphic
  to the real `YYYY-MM-DDTHH:MM:SS` rendering for UTC times; the fractional
  part drops trailing zeros (and the dot when zero) exactly as the
  `.999999999` directive does, and the rendering ends with the `Z` byte.
* Go map contents are embedded as association lists in first-insertion order;
  where the Go code ranges over a map, the embedding takes the enumeration
  order as an explicit argument constrained to be a permutation of the
  entries.
* JSON (de)serialization of the repository's own well-formed records and disk
  I/O failures are outside the model: values are stored directly.
-/

namespace LogVoyant

/-- Strict lexicographic order on byte strings, as `bytes.Compare < 0`. -/
def bytesLt : List Nat → List Nat → Bool
  | [], [] => false
  | [], _ :: _ => true
  | _ :: _, [] => false
  | a :: as, b :: bs => if a < b then true else if b < a then false else bytesLt as bs

/-- `isPfxOf p k` holds when byte string `p` is a prefix of `k`
(`bytes.HasPrefix`). -/
def isPfxOf : List Nat → List Nat → Bool
  | [], _ => true
  | _ :: _, [] => false
  | a :: as, b :: bs => if a = b then isPfxOf as bs else false

/-- The byte values of a Lean string (ASCII range in all uses here). -/
def strBytes (s : String) : List Nat := s.data.map Char.toNat

/-- Fixed-width decimal rendering: the `w` low-order decimal digits of `n`,
most significant first, as ASCII digit byte values. -/
def padDigits : Nat → Nat → List Nat
  | 0, _ => []
  | w + 1, n => padDigits w (n / 10) ++ [48 + n % 10]

/-- Drop trailing `'0'` bytes, as RFC3339Nano's `.999999999` directive does to
the fractional second. -/
def stripZeros (l : List Nat) : List Nat :=
  (l.reverse.dropWhile (fun d => d = 48)).reverse

/-- The fractional-second portion of an RFC3339Nano rendering: empty when the
nanosecond count is zero, otherwise a dot followed by the nine-digit fraction
with trailing zeros removed. -/
def fracPart (nsec : Nat) : List Nat :=
  if nsec = 0 then [] else 46 :: stripZeros (padDigits 9 nsec)

/-- A `time.Time` instant: seconds paired with nanoseconds within the second. -/
structure GoTime where
  sec : Nat
  nsec : Nat
deriving DecidableEq, Repr

/-- `t.Before(u)` on instants. -/
def timeBefore (t u : GoTime) : Bool :=
  if t.sec < u.sec then true
  else if t.sec = u.sec then decide (t.nsec < u.nsec)
  else false

/-- The key under which `BoltStorage.StoreLogs` files a record:
`log.Timestamp.Format(time.RFC3339Nano)` (seconds rendered order-isomorphically,
see the file header). -/
def rfc3339NanoKey (t : GoTime) : List Nat :=
  padDigits 19 t.sec ++ fracPart t.nsec ++ [90]

/-- `t.Format(time.RFC3339)`: second resolution, no fractional part. -/
def rfc3339Key (t : GoTime) : List Nat :=
  padDigits 19 t.sec ++ [90]

/-- `storage.LogLine`. -/
structure LogLine where
  timestamp : GoTime
  level : String
  message : String
  raw : String
  labels : List (String × String)
  streamID : String
deriving DecidableEq, Repr

/-- `storage.AnalysisSummary`. -/
structure AnalysisSummary where
  timestamp : GoTime
  summary : String
  rootCause : String
  severity : String
  resolved : Bool
  resolutionNote : String
deriving DecidableEq, Repr

/-- `storage.StreamPatterns`; the float64 error rate is carried as a rational
and never computed with in the claims settled here. -/
structure StreamPatterns where
  commonErrors : List String
  errorRate : Rat
deriving DecidableEq, Repr

/-- `storage.StreamContext`. -/
structure StreamContext where
  streamID : String
  firstSeen : GoTime
  lastSeen : GoTime
  analyses : List AnalysisSummary
  patterns : StreamPatterns
  totalLogs : Int
  errorCount : Int
deriving DecidableEq, Repr

/-- `storage.Analysis`. -/
structure Analysis where
  timestamp : GoTime
  streamID : String
  summary : String
  rootCause : String
  severity : String
  fixes : List String
  context : String
deriving DecidableEq, Repr

/-- A bolt bucket: an association list strictly sorted by `bytesLt` on keys. -/
abbrev Bucket (α : Type) : Type := List (List Nat × α)

/-- `bucket.Put(k, v)`: ordered insert, replacing the value on an equal key. -/
def insertKV {α : Type} (k : List Nat) (v : α) : Bucket α → Bucket α
  | [] => [(k, v)]
  | (k2, v2) :: rest =>
    if bytesLt k k2 then (k, v) :: (k2, v2) :: rest
    else if k = k2 then (k, v) :: rest
    else (k2, v2) :: insertKV k v rest

/-- The key under which `StoreLogs` files a record. -/
def keyOf (l : LogLine) : List Nat := rfc3339NanoKey l.timestamp

/-- The insertion loop of `BoltStorage.StoreLogs`: each record is `Put` under
its RFC3339Nano timestamp key. -/
def insertLogs (b : Bucket LogLine) (batch : List LogLine) : Bucket LogLine :=
  batch.foldl (fun acc l => insertKV (keyOf l) l acc) b

/-- The eviction loop of `BoltStorage.StoreLogs`:
`for k, _ := c.First(); k != nil && count < toDelete; k, _ = c.Next()`
with `bucket.Delete(k)` in the body.  The cursor starts at index 0; deleting
the key under the cursor removes that entry and shifts the rest down, leaving
the cursor's index on the former next entry, and `c.Next()` then advances
past it — so each iteration deletes the entry at the cursor's index and skips
the one after it.  The loop stops when `count` reaches `toDelete` or the
cursor runs off the end (`k == nil`). -/
def evictAux {α : Type} : Bucket α → Nat → Nat → Bucket α
  | l, _, 0 => l
  | l, i, d + 1 => if i < l.length then evictAux (l.eraseIdx i) (i + 1) d else l

/-- `BoltStorage.StoreLogs` restricted to one stream's log bucket: insert the
batch, then read `bucket.Stats().KeyN` — the key count of the committed
bucket `b`, which excludes this transaction's own `Put`s — and when it
exceeds 10000 run the cursor eviction loop for `Stats().KeyN - 10000` steps
over the post-insert content (the stream/context metadata updates in the same
transaction do not touch the log records and are outside the claims settled
here). -/
def storeLogs (b : Bucket LogLine) (batch : List LogLine) : Bucket LogLine :=
  if b.length > 10000 then evictAux (insertLogs b batch) 0 (b.length - 10000)
  else insertLogs b batch

/-- `storage.GetLogsOptions`; the zero `Since` time is `none`. -/
structure GetLogsOptions where
  limit : Int
  since : Option GoTime
  levels : List String
deriving DecidableEq, Repr

/-- The `contains` helper of the storage package (linear scan, string
equality). -/
def containsString (slice : List String) (item : String) : Bool :=
  slice.any (fun s => s == item)

/-- `!opts.Since.IsZero() && log.Timestamp.Before(opts.Since)`: the loop-break
test of `BoltStorage.GetLogs`. -/
def sinceBreak (since : Option GoTime) (t : GoTime) : Bool :=
  match since with
  | none => false
  | some s => timeBefore t s

/-- `len(opts.Levels) > 0 && !contains(opts.Levels, log.Level)`: the skip test
of `BoltStorage.GetLogs`. -/
def levelSkip (levels : List String) (lv : String) : Bool :=
  !levels.isEmpty && !containsString levels lv

/-- The cursor loop of `BoltStorage.GetLogs`: records visited newest-first,
prepended to the accumulator, with the limit guard in the loop condition, the
`since` test breaking and the level test skipping. -/
def getLogsLoop (opts : GetLogsOptions) : List LogLine → Nat → List LogLine → List LogLine
  | [], _, acc => acc
  | l :: rest, count, acc =>
    if opts.limit = 0 ∨ (count : Int) < opts.limit then
      if sinceBreak opts.since l.timestamp then acc
      else if levelSkip opts.levels l.level then getLogsLoop opts rest count acc
      else getLogsLoop opts rest (count + 1) (l :: acc)
    else acc

/-- `BoltStorage.GetLogs` on one stream's bucket; `none` is a missing bucket
(unknown stream), which yields no records and no error. -/
def getLogs (b : Option (Bucket LogLine)) (opts : GetLogsOptions) : List LogLine :=
  match b with
  | none => []
  | some bucket => getLogsLoop opts ((bucket.map Prod.snd).reverse) 0 []

/-- Lookup in an association list keyed by strings (a bolt `Get` on the
context or streams bucket). -/
def lookupAssoc {α : Type} (tbl : List (String × α)) (id : String) : Option α :=
  match tbl with
  | [] => none
  | (k, v) :: rest => if k = id then some v else lookupAssoc rest id

/-- `Put` on a string-keyed table (replace or append). -/
def putAssoc {α : Type} (tbl : List (String × α)) (id : String) (v : α) : List (String × α) :=
  match tbl with
  | [] => [(id, v)]
  | (k, v2) :: rest => if k = id then (k, v) :: rest else (k, v2) :: putAssoc rest id v

/-- `BoltStorage.GetContext`: a missing id yields the freshly initialized
empty context (first seen stamped with the current time) and no error; in the
embedding stored values decode as written, so the operation is total. -/
def getContext (tbl : List (String × StreamContext)) (id : String) (now : GoTime) : StreamContext :=
  match lookupAssoc tbl id with
  | some c => c
  | none =>
    { streamID := id
      firstSeen := now
      lastSeen := ⟨0, 0⟩
      analyses := []
      patterns := { commonErrors := [], errorRate := 0 }
      totalLogs := 0
      errorCount := 0 }

/-- The key of `BoltStorage.StoreAnalysis`:
`fmt.Sprintf("%s:%s", analysis.StreamID, analysis.Timestamp.Format(time.RFC3339))`. -/
def analysisKey (a : Analysis) : List Nat :=
  strBytes a.streamID ++ [58] ++ rfc3339Key a.timestamp

/-- `BoltStorage.StoreAnalysis`: `Put` into the analysis bucket. -/
def storeAnalysis (tbl : Bucket Analysis) (a : Analysis) : Bucket Analysis :=
  insertKV (analysisKey a) a tbl

/-- The cursor loop of `BoltStorage.GetAnalysisHistory`: continue while the
key carries the prefix, breaking once a positive limit is reached. -/
def historyLoop (pfx : List Nat) (limit : Int) : Bucket Analysis → Nat → List Analysis
  | [], _ => []
  | e :: rest, count =>
    if isPfxOf pfx e.1 then
      if 0 < limit ∧ ¬((count : Int) < limit) then []
      else e.2 :: historyLoop pfx limit rest (count + 1)
    else []

/-- `BoltStorage.GetAnalysisHistory`: seek to the first key not below
`streamID + ":"` (on the sorted bucket, `dropWhile` of the smaller keys), then
scan forward while the prefix matches. -/
def getAnalysisHistory (tbl : Bucket Analysis) (streamID : String) (limit : Int) : List Analysis :=
  historyLoop (strBytes streamID ++ [58]) limit
    (tbl.dropWhile (fun e => bytesLt e.1 (strBytes streamID ++ [58]))) 0

/-! Resolve handler (`internal/server/handlers.go`, `Server.handleResolve`). -/

/-- The outcome of an HTTP handler in the embedding: a successful JSON
response, an error response with its status code, or a Go runtime panic
(which aborts the request without a structured client error). -/
inductive HandlerOutcome where
  | ok
  | httpError (status : Nat) (msg : String)
  | panicked
deriving DecidableEq, Repr

/-- The zero-valued `AnalysisSummary`, the fallback of out-of-range reads. -/
def emptySummary : AnalysisSummary :=
  { timestamp := ⟨0, 0⟩, summary := "", rootCause := "", severity := ""
    resolved := false, resolutionNote := "" }

/-- `Server.handleResolve` after a successful body decode: load the context,
reject an index at or beyond the analysis count with a 400, then mutate the
addressed summary's resolved flag and note and write the context back.  The
source guards only the upper bound; a negative index reaches
`ctx.Analyses[req.AnalysisIndex]` and panics. -/
def handleResolve (tbl : List (String × StreamContext)) (streamID : String)
    (analysisIndex : Int) (note : String) (now : GoTime) :
    HandlerOutcome × List (String × StreamContext) :=
  let ctx := getContext tbl streamID now
  if (ctx.analyses.length : Int) ≤ analysisIndex then
    (.httpError 400 "invalid analysis index", tbl)
  else if analysisIndex < 0 then
    (.panicked, tbl)
  else
    let i := analysisIndex.toNat
    let entry := ctx.analyses.getD i emptySummary
    let ctx2 := { ctx with
      analyses := ctx.analyses.set i { entry with resolved := true, resolutionNote := note } }
    (.ok, putAssoc tbl streamID ctx2)

/-! WebSocket hub (`internal/server/websocket.go`). -/

/-- The `register` case of `WebSocketHub.Run`: map-set semantics on the
stream's connection set (a connection is a `Nat` handle). -/
def hubRegister (clients : List (String × List Nat)) (streamID : String) (conn : Nat) :
    List (String × List Nat) :=
  match lookupAssoc clients streamID with
  | none => putAssoc clients streamID [conn]
  | some conns => if conn ∈ conns then clients else putAssoc clients streamID (conns ++ [conn])

/-- The `unregister` case of `WebSocketHub.Run`: drop the connection and
delete the stream entry once empty. -/
def hubUnregister (clients : List (String × List Nat)) (streamID : String) (conn : Nat) :
    List (String × List Nat) :=
  match lookupAssoc clients streamID with
  | none => clients
  | some conns =>
    if conn ∈ conns then
      let rest := conns.filter (fun c => c ≠ conn)
      if rest.isEmpty then clients.filter (fun e => e.1 ≠ streamID)
      else putAssoc clients streamID rest
    else clients

/-- The outcome of the `broadcast` case of `WebSocketHub.Run` on one
published record: either every connection of the stream was written exactly
once, or a write failed.  On a write failure the source executes
`h.unregister <- &Client{...}` from inside `Run` itself; `h.unregister` is an
unbuffered channel whose only receiver is this very loop, so the send can
never complete: the hub goroutine blocks permanently, the connections after
the failing one are never written, and the failing connection is never
unregistered. -/
inductive BroadcastOutcome where
  | delivered (conns : List Nat)
  | hubBlocked (deliveredBefore : List Nat) (failedConn : Nat)
deriving DecidableEq, Repr

/-- The write loop of the `broadcast` case, with `writeOk` telling which
connection writes succeed. -/
def deliverLoop (writeOk : Nat → Bool) : List Nat → BroadcastOutcome
  | [] => .delivered []
  | c :: cs =>
    if writeOk c then
      match deliverLoop writeOk cs with
      | .delivered d => .delivered (c :: d)
      | .hubBlocked d f => .hubBlocked (c :: d) f
    else
      .hubBlocked [] c

/-- The `broadcast` case of `WebSocketHub.Run` for one stream's record. -/
def broadcastCase (clients : List (String × List Nat)) (streamID : String)
    (writeOk : Nat → Bool) : BroadcastOutcome :=
  deliverLoop writeOk ((lookupAssoc clients streamID).getD [])

/-! Fallback analyzer (`internal/analyzer/fallback.go`). -/

/-- `analyzer.ErrorPattern`. -/
structure ErrorPattern where
  keywords : List String
  rootCause : String
  fixes : List String
  severity : String
deriving DecidableEq, Repr

/-- The pattern table built by `NewFallbackAnalyzer`. -/
def connectivityPattern : ErrorPattern :=
  { keywords := ["connection", "timeout", "refused"]
    rootCause := "Network connectivity issue - service unreachable or connection timing out"
    fixes := ["Check network connectivity and firewall rules",
              "Verify target service is running and accessible",
              "Review connection timeout settings"]
    severity := "P1" }

/-- The remaining patterns of `NewFallbackAnalyzer`, in configuration order. -/
def defaultPatterns : List ErrorPattern :=
  [connectivityPattern,
   { keywords := ["out of memory", "oom", "memory limit"]
     rootCause := "Application exceeding memory limits"
     fixes := ["Increase memory allocation for the container/pod",
               "Review memory leaks in application code",
               "Enable memory profiling to identify hot spots"]
     severity := "P0" },
   { keywords := ["database", "db", "sql", "query"]
     rootCause := "Database-related error - connection, query, or schema issue"
     fixes := ["Verify database connection parameters",
               "Check database server status and load",
               "Review query performance and indexes"]
     severity := "P1" },
   { keywords := ["authentication", "auth", "unauthorized", "403", "401"]
     rootCause := "Authentication or authorization failure"
     fixes := ["Verify API keys and credentials are valid",
               "Check token expiration and refresh mechanisms",
               "Review RBAC policies and permissions"]
     severity := "P2" },
   { keywords := ["disk", "storage", "volume", "no space"]
     rootCause := "Storage capacity issue - disk full or volume mount problem"
     fixes := ["Check available disk space on nodes",
               "Review log rotation and cleanup policies",
               "Increase persistent volume size if needed"]
     severity := "P0" },
   { keywords := ["crash", "panic", "fatal", "segfault"]
     rootCause := "Critical application crash or fatal error"
     fixes := ["Review application logs for stack traces",
               "Check recent code deployments for regressions",
               "Enable core dumps for debugging"]
     severity := "P0" },
   { keywords := ["ssl", "tls", "certificate", "x509"]
     rootCause := "SSL/TLS certificate validation failure"
     fixes := ["Verify certificate expiration dates",
               "Check certificate chain and CA trust",
               "Review certificate SANs and hostname matching"]
     severity := "P1" },
   { keywords := ["rate limit", "throttle", "429"]
     rootCause := "API rate limiting or throttling in effect"
     fixes := ["Implement exponential backoff in client code",
               "Review and increase rate limit quotas",
               "Optimize request patterns to reduce frequency"]
     severity := "P2" },
   { keywords := ["dns", "resolve", "hostname"]
     rootCause := "DNS resolution failure"
     fixes := ["Check DNS server configuration",
               "Verify service names and namespace in K8s",
               "Review /etc/resolv.conf settings"]
     severity := "P1" },
   { keywords := ["port", "bind", "address already in use"]
     rootCause := "Port already in use - potential duplicate service"
     fixes := ["Check for duplicate deployments on same port",
               "Review port allocation and conflicts",
               "Verify service discovery configuration"]
     severity := "P2" }]

/-- Character-list prefix test used by `containsSub`. -/
def isPfxOfC : List Char → List Char → Bool
  | [], _ => true
  | _ :: _, [] => false
  | a :: as, b :: bs => a = b && isPfxOfC as bs

/-- `strings.Contains(hay, sub)` on character lists. -/
def containsSub (hay sub : List Char) : Bool :=
  match hay with
  | [] => sub.isEmpty
  | h :: rest => isPfxOfC sub (h :: rest) || containsSub rest sub

/-- `strings.ToLower` (character-wise; identical to Go for the ASCII data all
uses here carry). -/
def lowerStr (s : String) : String := ⟨s.data.map Char.toLower⟩

/-- The messages of ERROR- and FATAL-level records, lowercased, in record
order (the `errorMessages` accumulation of `FallbackAnalyzer.Analyze`). -/
def errorMsgs (logs : List LogLine) : List String :=
  logs.filterMap (fun l =>
    if l.level = "ERROR" ∨ l.level = "FATAL" then some (lowerStr l.message) else none)

/-- The ERROR-level record count of the batch. -/
def errorCountOf (logs : List LogLine) : Nat :=
  logs.countP (fun l => l.level = "ERROR")

/-- The FATAL-level record count of the batch. -/
def fatalCountOf (logs : List LogLine) : Nat :=
  logs.countP (fun l => l.level = "FATAL")

/-- The WARN-level record count of the batch. -/
def warnCountOf (logs : List LogLine) : Nat :=
  logs.countP (fun l => l.level = "WARN")

/-- One pattern's score: the keyword loop of `FallbackAnalyzer.Analyze`, where
the inner message loop breaks on the first lowercased-substring hit, so each
keyword adds at most one. -/
def patScore (msgs : List String) (p : ErrorPattern) : Nat :=
  p.keywords.foldl
    (fun acc kw =>
      if msgs.any (fun m => containsSub m.data (lowerStr kw).data) then acc + 1 else acc) 0

/-- The pattern-selection fold of `FallbackAnalyzer.Analyze`: running maximum
starting at zero, updated only on a strictly greater score. -/
def selectLoop (msgs : List String) : List ErrorPattern → Nat → Option ErrorPattern → Option ErrorPattern
  | [], _, acc => acc
  | p :: ps, mx, acc =>
    if patScore msgs p > mx then selectLoop msgs ps (patScore msgs p) (some p)
    else selectLoop msgs ps mx acc

/-- The matched pattern of `FallbackAnalyzer.Analyze` (none when every score
is zero). -/
def selectPattern (pats : List ErrorPattern) (msgs : List String) : Option ErrorPattern :=
  selectLoop msgs pats 0 none

/-- The severity chain of `FallbackAnalyzer.Analyze` computed purely from the
level counts. -/
def countSeverity (fatalCount errorCount warnCount : Nat) : String :=
  if fatalCount > 0 then "P0"
  else if errorCount > 50 then "P0"
  else if errorCount > 10 then "P1"
  else if errorCount > 0 then "P2"
  else if warnCount > 20 then "P2"
  else "P3"

/-- The pattern-severity override of `FallbackAnalyzer.Analyze`: a P0 pattern
lifts P1/P2/P3, a P1 pattern lifts P2/P3, nothing else changes. -/
def overrideSeverity (patSev baseSev : String) : String :=
  if patSev = "P0" ∧ (baseSev = "P1" ∨ baseSev = "P2" ∨ baseSev = "P3") then "P0"
  else if patSev = "P1" ∧ (baseSev = "P2" ∨ baseSev = "P3") then "P1"
  else baseSev

/-- The splitting loop of `strings.Fields`: `cur` holds the reversed bytes of
the field being read. -/
def fieldsAux : List Char → List Char → List String
  | [], cur => if cur.isEmpty then [] else [⟨cur.reverse⟩]
  | c :: rest, cur =>
    if c.isWhitespace then
      if cur.isEmpty then fieldsAux rest [] else (⟨cur.reverse⟩ : String) :: fieldsAux rest []
    else fieldsAux rest (c :: cur)

/-- `strings.Fields`: split on whitespace, dropping empty pieces. -/
def goFields (s : String) : List String := fieldsAux s.data []

/-- The stopword test `isCommonWord` of `fallback.go`. -/
def isCommonWord (word : String) : Bool :=
  containsString
    ["error", "failed", "warning", "info", "the", "and", "for", "from", "with", "that", "this"]
    (lowerStr word)

/-- The words tallied by `extractCommonPhrases`: every field of every message
that is longer than three bytes and not a stopword, in encounter order. -/
def sigWords (msgs : List String) : List String :=
  msgs.flatMap (fun m => (goFields m).filter (fun w => w.length > 3 ∧ ¬ isCommonWord w))

/-- One `wordCount[word]++` on the map content kept in first-seen order. -/
def bumpCount (l : List (String × Nat)) (w : String) : List (String × Nat) :=
  match l with
  | [] => [(w, 1)]
  | (w2, c) :: rest => if w2 = w then (w2, c + 1) :: rest else (w2, c) :: bumpCount rest w

/-- The content of the `wordCount` map of `extractCommonPhrases`, as an
association list in first-seen order (Go enumerates this map in an
unspecified, randomized order; the enumeration used is passed separately). -/
def wordCounts (msgs : List String) : List (String × Nat) :=
  (sigWords msgs).foldl bumpCount []

/-- The inner pass of the partial selection sort of `extractCommonPhrases`,
for one value of `i`: `a` is the element at position `i`, the list the
elements after it; each strictly greater element swaps into position `i`.
Returns the final element at `i` and the reshuffled tail. -/
def selInner (a : String × Nat) : List (String × Nat) → (String × Nat) × List (String × Nat)
  | [] => (a, [])
  | b :: bs =>
    if b.2 > a.2 then
      let r := selInner b bs
      (r.1, a :: r.2)
    else
      let r := selInner a bs
      (r.1, b :: r.2)

/-- The outer pass of the partial selection sort: sorts the first `k`
positions of the array. -/
def selTop : Nat → List (String × Nat) → List (String × Nat)
  | 0, l => l
  | _ + 1, [] => []
  | k + 1, a :: rest =>
    let r := selInner a rest
    r.1 :: selTop k r.2

/-- `FallbackAnalyzer.extractCommonPhrases`, with the `wordCount` map's
enumeration order passed in as `enum` (constrained in the theorems to be a
permutation of `wordCounts msgs`): keep the words seen more than once, sort
the top `min 3 n` positions by count (ties never swap, so ties keep their
enumeration order), and return those top words. -/
def extractCommonPhrases (msgs : List String) (enum : List (String × Nat)) : List String :=
  if msgs.isEmpty then []
  else
    let freqs := enum.filter (fun e => e.2 > 1)
    if freqs.isEmpty then []
    else
      let k := min 3 freqs.length
      ((selTop k freqs).take k).map Prod.fst

/-- Decimal digit characters of a Nat (most significant first), by fuel. -/
def natDigitsAux : Nat → Nat → List Char
  | 0, _ => []
  | fuel + 1, n =>
    if n < 10 then [Char.ofNat (48 + n)]
    else natDigitsAux fuel (n / 10) ++ [Char.ofNat (48 + n % 10)]

/-- `%d` rendering of a Nat. -/
def natStr (n : Nat) : String := ⟨natDigitsAux (n + 1) n⟩

/-- `strings.Join(l, ", ")`. -/
def joinComma : List String → String
  | [] => ""
  | [s] => s
  | s :: rest => s ++ ", " ++ joinComma rest

/-- The `(%d errors, %d warnings)` suffix of the fallback summaries. -/
def countsSuffix (errorCount warnCount : Nat) : String :=
  " (" ++ natStr errorCount ++ " errors, " ++ natStr warnCount ++ " warnings)"

/-- `FallbackAnalyzer.Analyze`.  `enum` is the enumeration order of the
`wordCount` map used by `extractCommonPhrases` (only reached when no pattern
matched).  The result's timestamp and stream id are zero-valued: the caller
stamps them.  A selected pattern's keyword list is nonempty (its score is
positive), so the `headD` rendering of `Keywords[0]` never falls back. -/
def fallbackAnalyze (pats : List ErrorPattern) (logs : List LogLine)
    (ctx : StreamContext) (enum : List (String × Nat)) : Analysis :=
  let errorCount := errorCountOf logs
  let warnCount := warnCountOf logs
  let fatalCount := fatalCountOf logs
  let msgs := errorMsgs logs
  let baseSev := countSeverity fatalCount errorCount warnCount
  let contextNote :=
    match ctx.analyses.getLast? with
    | some latest =>
      if latest.resolved then ""
      else "May be related to previous unresolved issue: " ++ latest.summary
           ++ " (" ++ latest.severity ++ ")"
    | none => ""
  match selectPattern pats msgs with
  | some p =>
    { timestamp := ⟨0, 0⟩
      streamID := ""
      summary := "Detected " ++ p.keywords.headD "" ++ " errors" ++ countsSuffix errorCount warnCount
      rootCause := p.rootCause
      severity := overrideSeverity p.severity baseSev
      fixes := p.fixes
      context := contextNote }
  | none =>
    let errorPhrases := extractCommonPhrases msgs enum
    if errorPhrases.isEmpty then
      { timestamp := ⟨0, 0⟩
        streamID := ""
        summary := "Generic errors detected" ++ countsSuffix errorCount warnCount
        rootCause := "Unable to identify specific pattern from error messages. Review full error logs for stack traces and context."
        severity := baseSev
        fixes := ["Review full error logs with stack traces for detailed context",
                  "Check recent deployments or configuration changes",
                  "Verify all required services and dependencies are running",
                  "Check application health endpoints and metrics"]
        context := contextNote }
    else
      { timestamp := ⟨0, 0⟩
        streamID := ""
        summary := "Multiple errors detected: "
                   ++ joinComma (errorPhrases.take (min 2 errorPhrases.length))
                   ++ countsSuffix errorCount warnCount
        rootCause := "Recurring issues detected: " ++ joinComma errorPhrases
                     ++ ". Manual investigation recommended to identify root cause."
        severity := baseSev
        fixes := ["Review full error logs with stack traces for detailed context",
                  "Check recent deployments or configuration changes",
                  "Verify all required services and dependencies are running",
                  "Check application health endpoints and metrics"]
        context := contextNote }

/-! Analyzer orchestration (`internal/analyzer/analyzer.go`). -/

/-- The external classifier's behaviour for one call: `none` when no client
is configured (`a.llm == nil`); otherwise the call's result, an error folding
into the fallback path. -/
def LlmBehaviour : Type := Option (Except Unit Analysis)

/-- `Analyzer.Analyze`: reject an empty batch, load the context (total in the
embedding: stored contexts decode as written and a missing one defaults),
classify via the external model when configured and successful, else via the
fallback, and stamp the result with the stream id and the current time. -/
def analyzerAnalyze (llm : LlmBehaviour) (pats : List ErrorPattern)
    (tbl : List (String × StreamContext)) (streamID : String) (logs : List LogLine)
    (enum : List (String × Nat)) (now : GoTime) : Except String Analysis :=
  if logs.isEmpty then .error "no logs to analyze"
  else
    let ctx := getContext tbl streamID now
    let analysis :=
      match llm with
      | some (.ok a) => a
      | some (.error _) => fallbackAnalyze pats logs ctx enum
      | none => fallbackAnalyze pats logs ctx enum
    .ok { analysis with streamID := streamID, timestamp := now }

/-! Derived notions used by the theorems. -/

/-- A bucket is sorted: keys strictly ascending in byte order (the invariant
bolt maintains and `insertKV` preserves). -/
abbrev SortedB {α : Type} (b : Bucket α) : Prop :=
  List.Pairwise (fun e1 e2 => bytesLt e1.1 e2.1 = true) b

/-- Severity rank under the ordering P0 > P1 > P2 > P3 (smaller rank is more
severe). -/
def sevRank (s : String) : Nat :=
  if s = "P0" then 0 else if s = "P1" then 1 else if s = "P2" then 2 else 3

/-- The more severe of two severities (first one on equal rank). -/
def maxSev (a b : String) : String :=
  if sevRank b < sevRank a then b else a

/-- The specification-level score of one keyword: it contributes exactly one
when it appears, lowercased, as a substring of at least one ERROR/FATAL
message. -/
def keywordHits (msgs : List String) (kw : String) : Bool :=
  msgs.any (fun m => containsSub m.data (lowerStr kw).data)

/-- A concrete family of sequentially timestamped lines (one second apart),
used to instantiate the sequential-ingestion scenario. -/
def scenLine (i : Nat) : LogLine :=
  { timestamp := ⟨i, 0⟩, level := "INFO", message := "line", raw := "line"
    labels := [], streamID := "s1" }

/-! Order lemmas for the byte-string comparison. -/

theorem bytesLt_irrefl : ∀ l, bytesLt l l = false
  | [] => rfl
  | _ :: as => by simp [bytesLt, bytesLt_irrefl as]

theorem bytesLt_asymm : ∀ a b, bytesLt a b = true → bytesLt b a = false
  | [], [], h => by simp [bytesLt] at h
  | [], _ :: _, _ => rfl
  | _ :: _, [], h => by simp [bytesLt] at h
  | a :: as, b :: bs, h => by
    simp only [bytesLt] at h ⊢
    by_cases h1 : a < b
    · have h2 : ¬ b < a := by omega
      simp [h1, h2]
    · by_cases h2 : b < a
      · simp [h1, h2] at h
      · simp [h1, h2] at h ⊢
        exact bytesLt_asymm as bs h

theorem bytesLt_ne {a b : List Nat} (h : bytesLt a b = true) : a ≠ b := by
  intro he
  subst he
  rw [bytesLt_irrefl] at h
  exact Bool.false_ne_true h

theorem bytesLt_trans : ∀ a b c, bytesLt a b = true → bytesLt b c = true → bytesLt a c = true
  | [], [], _, h1, _ => by simp [bytesLt] at h1
  | [], _ :: _, [], _, h2 => by simp [bytesLt] at h2
  | [], _ :: _, _ :: _, _, _ => rfl
  | _ :: _, [], _, h1, _ => by simp [bytesLt] at h1
  | _ :: _, _ :: _, [], _, h2 => by simp [bytesLt] at h2
  | a :: as, b :: bs, c :: cs, h1, h2 => by
    simp only [bytesLt] at h1 h2 ⊢
    by_cases hab : a < b
    · by_cases hbc : b < c
      · have hac : a < c := by omega
        simp [hac]
      · by_cases hcb : c < b
        · simp [hbc, hcb] at h2
        · have hbc2 : b = c := by omega
          subst hbc2
          simp [hab]
    · by_cases hba : b < a
      · simp [hab, hba] at h1
      · have hab2 : a = b := by omega
        subst hab2
        rw [if_neg (lt_irrefl a), if_neg (lt_irrefl a)] at h1
        by_cases hbc : a < c
        · simp [hbc]
        · by_cases hcb : c < a
          · simp [hbc, hcb] at h2
          · rw [if_neg hbc, if_neg hcb] at h2 ⊢
            exact bytesLt_trans as bs cs h1 h2

theorem bytesLt_total : ∀ a b, a ≠ b → bytesLt a b = true ∨ bytesLt b a = true
  | [], [], h => absurd rfl h
  | [], _ :: _, _ => Or.inl rfl
  | _ :: _, [], _ => Or.inr rfl
  | a :: as, b :: bs, h => by
    by_cases hab : a < b
    · exact Or.inl (by simp [bytesLt, hab])
    · by_cases hba : b < a
      · exact Or.inr (by simp [bytesLt, hba])
      · have he : a = b := by omega
        subst he
        have hne : as ≠ bs := by intro hx; exact h (by rw [hx])
        rcases bytesLt_total as bs hne with hl | hl
        · exact Or.inl (by simp [bytesLt, hl])
        · exact Or.inr (by simp [bytesLt, hl])

/-! Ordered-insert lemmas. -/

theorem insertKV_append {α : Type} (k : List Nat) (v : α) :
    ∀ b : Bucket α, (∀ e ∈ b, bytesLt e.1 k = true) → insertKV k v b = b ++ [(k, v)]
  | [], _ => rfl
  | (k2, v2) :: rest, h => by
    have h2 : bytesLt k2 k = true := h (k2, v2) (List.mem_cons_self _ _)
    simp only [insertKV]
    rw [if_neg (by simp [bytesLt_asymm k2 k h2]),
      if_neg (Ne.symm (bytesLt_ne h2)),
      insertKV_append k v rest (fun e he => h e (List.mem_cons_of_mem _ he))]
    rfl

/-! Fixed-width decimal rendering lemmas. -/

theorem padDigits_length : ∀ (w n : Nat), (padDigits w n).length = w
  | 0, _ => rfl
  | w + 1, n => by simp [padDigits, padDigits_length w]

theorem bytesLt_append_right : ∀ (l s1 s2 : List Nat),
    bytesLt (l ++ s1) (l ++ s2) = bytesLt s1 s2
  | [], _, _ => rfl
  | a :: l, s1, s2 => by
    simp [bytesLt, bytesLt_append_right l s1 s2]

theorem bytesLt_append_of_lt : ∀ (l1 l2 : List Nat), l1.length = l2.length →
    bytesLt l1 l2 = true → ∀ s1 s2, bytesLt (l1 ++ s1) (l2 ++ s2) = true
  | [], [], _, h, _, _ => by simp [bytesLt] at h
  | [], _ :: _, hlen, _, _, _ => by simp at hlen
  | _ :: _, [], hlen, _, _, _ => by simp at hlen
  | a :: as, b :: bs, hlen, h, s1, s2 => by
    simp only [bytesLt] at h
    simp only [List.cons_append, bytesLt]
    by_cases hab : a < b
    · rw [if_pos hab]
    · rw [if_neg hab] at h ⊢
      by_cases hba : b < a
      · rw [if_pos hba] at h
        exact absurd h (by simp)
      · rw [if_neg hba] at h ⊢
        exact bytesLt_append_of_lt as bs (by simpa using hlen) h s1 s2

theorem padDigits_mono : ∀ (w i j : Nat), i < j → j < 10 ^ w →
    bytesLt (padDigits w i) (padDigits w j) = true
  | 0, i, j, hij, hj => by simp at hj; omega
  | w + 1, i, j, hij, hj => by
    simp only [padDigits]
    by_cases h1 : i / 10 < j / 10
    · have hj10 : j / 10 < 10 ^ w := by
        rw [Nat.div_lt_iff_lt_mul (by norm_num : (0 : Nat) < 10)]
        calc j < 10 ^ (w + 1) := hj
        _ = 10 ^ w * 10 := pow_succ 10 w
      exact bytesLt_append_of_lt _ _ (by rw [padDigits_length, padDigits_length])
        (padDigits_mono w _ _ h1 hj10) _ _
    · have h2 : i / 10 = j / 10 := by omega
      rw [h2, bytesLt_append_right]
      have hm : i % 10 < j % 10 := by omega
      simp [bytesLt, hm]

theorem nanoKey_mono_sec (i j : Nat) (hij : i < j) (hj : j < 10 ^ 19) :
    bytesLt (rfc3339NanoKey ⟨i, 0⟩) (rfc3339NanoKey ⟨j, 0⟩) = true := by
  unfold rfc3339NanoKey
  rw [List.append_assoc, List.append_assoc]
  exact bytesLt_append_of_lt _ _ (by rw [padDigits_length, padDigits_length])
    (padDigits_mono 19 i j hij hj) _ _

theorem insertLogs_singleton (b : Bucket LogLine) (l : LogLine) :
    insertLogs b [l] = insertKV (keyOf l) l b := rfl

/-- Sequential single-record ingestion with strictly ascending keys: during
the first 10001 calls the committed pre-call count never exceeds 10000, so
the eviction loop never runs and after `k` calls the bucket holds all `k`
lines, in key order. -/
theorem ringFoldLag_eq (line : Nat → LogLine)
    (hmono : ∀ i j, i < j → j ≤ 10001 → bytesLt (keyOf (line i)) (keyOf (line j)) = true) :
    ∀ k, k ≤ 10001 →
      (List.range k).foldl (fun b i => storeLogs b [line (i + 1)]) [] =
        (List.range k).map (fun i => (keyOf (line (i + 1)), line (i + 1))) := by
  intro k
  induction k with
  | zero => intro _; rfl
  | succ k ih =>
    intro hk
    rw [List.range_succ, List.foldl_append, ih (by omega)]
    rw [List.foldl_cons, List.foldl_nil]
    show storeLogs ((List.range k).map (fun i => (keyOf (line (i + 1)), line (i + 1))))
        [line (k + 1)] =
      (List.range k ++ [k]).map (fun i => (keyOf (line (i + 1)), line (i + 1)))
    have hall : ∀ e ∈ (List.range k).map (fun i => (keyOf (line (i + 1)), line (i + 1))),
        bytesLt e.1 (keyOf (line (k + 1))) = true := by
      intro e he
      rcases List.mem_map.mp he with ⟨i, hi, rfl⟩
      have hik : i < k := List.mem_range.mp hi
      exact hmono (i + 1) (k + 1) (by omega) (by omega)
    have hlen : ¬ ((List.range k).map
        (fun i => (keyOf (line (i + 1)), line (i + 1)))).length > 10000 := by
      simp only [List.length_map, List.length_range]
      omega
    unfold storeLogs
    rw [if_neg hlen, insertLogs_singleton, insertKV_append _ _ _ hall, List.map_append]
    rfl

/-- C1 (code bug): the ring-buffer cap is not enforced.  `Stats().KeyN` reads
committed pages only, excluding the open transaction's `Put`s, so the
eviction trigger uses the record count from before the call: one call on a
fresh stream persists its whole batch with no eviction whatever its size, and
ingesting 10001 sequentially timestamped lines one call at a time leaves all
10001 records in store — 10001 persisted records exceed the 10000 cap and the
oldest survivor is line 1, where the claim requires at most 10000 records
with line 1 evicted and line 2 the oldest survivor. -/
theorem storeLogs_stats_lag :
    (∀ batch : List LogLine, storeLogs [] batch = insertLogs [] batch) ∧
    (List.range 10001).foldl (fun b i => storeLogs b [scenLine (i + 1)]) [] =
      (List.range 10001).map (fun i => (keyOf (scenLine (i + 1)), scenLine (i + 1))) ∧
    ((List.range 10001).foldl (fun b i => storeLogs b [scenLine (i + 1)]) []).length = 10001 ∧
    (keyOf (scenLine 1), scenLine 1) ∈
      (List.range 10001).foldl (fun b i => storeLogs b [scenLine (i + 1)]) [] := by
  have hmono : ∀ i j, i < j → j ≤ 10001 →
      bytesLt (keyOf (scenLine i)) (keyOf (scenLine j)) = true :=
    fun i j hij hj => nanoKey_mono_sec i j hij (lt_of_le_of_lt hj (by norm_num))
  have hfold := ringFoldLag_eq scenLine hmono 10001 (le_refl _)
  refine ⟨?_, hfold, ?_, ?_⟩
  · intro batch
    unfold storeLogs
    rw [if_neg (by decide)]
  · rw [hfold]
    simp
  · rw [hfold]
    exact List.mem_map_of_mem (fun i => (keyOf (scenLine (i + 1)), scenLine (i + 1)))
      (show (0 : Nat) ∈ List.range 10001 from List.mem_range.mpr (by decide))

/-- Witness for C1 instantiating the fresh-stream conjunct at a concrete
batch. -/
theorem storeLogs_stats_lag_witness :
    storeLogs [] [scenLine 1] = insertLogs [] [scenLine 1] :=
  storeLogs_stats_lag.1 [scenLine 1]

/-! GetLogs lemmas. -/

theorem getLogsLoop_sublist (opts : GetLogsOptions) :
    ∀ (l : List LogLine) (count : Nat) (acc : List LogLine),
      (getLogsLoop opts l count acc).Sublist (l.reverse ++ acc)
  | [], _, acc => by simp [getLogsLoop]
  | x :: xs, count, acc => by
    simp only [getLogsLoop]
    by_cases h1 : opts.limit = 0 ∨ (count : Int) < opts.limit
    · rw [if_pos h1]
      by_cases h2 : sinceBreak opts.since x.timestamp = true
      · rw [if_pos h2]
        exact List.sublist_append_right _ _
      · rw [if_neg h2]
        by_cases h3 : levelSkip opts.levels x.level = true
        · rw [if_pos h3]
          refine (getLogsLoop_sublist opts xs count acc).trans ?_
          rw [List.reverse_cons, List.append_assoc]
          exact List.Sublist.append_left (List.sublist_cons_self _ _) _
        · rw [if_neg h3]
          have ih := getLogsLoop_sublist opts xs (count + 1) (x :: acc)
          rw [List.reverse_cons, List.append_assoc]
          exact ih
    · rw [if_neg h1]
      exact List.sublist_append_right _ _

theorem getLogsLoop_mem (opts : GetLogsOptions) :
    ∀ (l : List LogLine) (count : Nat) (acc : List LogLine),
      (∀ r ∈ acc, sinceBreak opts.since r.timestamp = false ∧
        (opts.levels ≠ [] → containsString opts.levels r.level = true)) →
      ∀ r ∈ getLogsLoop opts l count acc,
        sinceBreak opts.since r.timestamp = false ∧
        (opts.levels ≠ [] → containsString opts.levels r.level = true)
  | [], _, _, hacc => hacc
  | x :: xs, count, acc, hacc => by
    simp only [getLogsLoop]
    by_cases h1 : opts.limit = 0 ∨ (count : Int) < opts.limit
    · rw [if_pos h1]
      by_cases h2 : sinceBreak opts.since x.timestamp = true
      · rw [if_pos h2]
        exact hacc
      · rw [if_neg h2]
        by_cases h3 : levelSkip opts.levels x.level = true
        · rw [if_pos h3]
          exact getLogsLoop_mem opts xs count acc hacc
        · rw [if_neg h3]
          refine getLogsLoop_mem opts xs (count + 1) (x :: acc) ?_
          intro r hr
          rcases List.mem_cons.mp hr with hr | hr
          · subst hr
            refine ⟨Bool.eq_false_iff.mpr h2, ?_⟩
            intro hlv
            have h5 : opts.levels.isEmpty = false := by
              cases hl : opts.levels with
              | nil => exact absurd hl hlv
              | cons a as => rfl
            by_contra hc
            have h6 : containsString opts.levels r.level = false := Bool.eq_false_iff.mpr hc
            exact h3 (by simp [levelSkip, h5, h6])
          · exact hacc r hr
    · rw [if_neg h1]
      exact hacc

theorem getLogsLoop_len (opts : GetLogsOptions) (hpos : 0 < opts.limit) :
    ∀ (l : List LogLine) (count : Nat) (acc : List LogLine),
      acc.length = count → (count : Int) ≤ opts.limit →
      ((getLogsLoop opts l count acc).length : Int) ≤ opts.limit
  | [], count, acc, hlen, hle => by
    simp only [getLogsLoop]
    rw [hlen]
    exact hle
  | x :: xs, count, acc, hlen, hle => by
    simp only [getLogsLoop]
    by_cases h1 : opts.limit = 0 ∨ (count : Int) < opts.limit
    · rw [if_pos h1]
      have hlt : (count : Int) < opts.limit := by
        rcases h1 with h | h
        · omega
        · exact h
      by_cases h2 : sinceBreak opts.since x.timestamp = true
      · rw [if_pos h2, hlen]
        exact hle
      · rw [if_neg h2]
        by_cases h3 : levelSkip opts.levels x.level = true
        · rw [if_pos h3]
          exact getLogsLoop_len opts hpos xs count acc hlen hle
        · rw [if_neg h3]
          exact getLogsLoop_len opts hpos xs (count + 1) (x :: acc)
            (by simp [hlen]) (by omega)
    · rw [if_neg h1, hlen]
      exact hle

/-- C2 counterexample: two records stored in one batch, timestamps 100.1s and
100.15s, queried with `since = 100.1s`.  The RFC3339Nano key of 100.15s sorts
before that of 100.1s (the fraction `.1` is a proper prefix of `.15` and `Z`
exceeds every digit byte), so GetLogs returns the 100.15s record first —
decreasing timestamp order — and it returns the 100.1s record although its
timestamp equals `since` (the `Before` test is an inclusive, not strict,
lower bound). -/
theorem getLogs_claim_counterexample :
    (getLogs
        (some (storeLogs []
          [{ timestamp := ⟨100, 100000000⟩, level := "INFO", message := "m1", raw := "r1",
             labels := [], streamID := "s" },
           { timestamp := ⟨100, 150000000⟩, level := "INFO", message := "m2", raw := "r2",
             labels := [], streamID := "s" }]))
        { limit := 0, since := some ⟨100, 100000000⟩, levels := [] }).map LogLine.timestamp =
      [⟨100, 150000000⟩, ⟨100, 100000000⟩] ∧
    timeBefore ⟨100, 100000000⟩ ⟨100, 150000000⟩ = true := by
  decide

/-- C2 (amended): GetLogs on an unknown stream returns the empty sequence;
on a bucket it returns a subsequence of the stored records in stored (byte
key) order — which coincides with timestamp order only when the RFC3339Nano
keys order like the timestamps; every returned record satisfies the `since`
test as an inclusive lower bound (not strict) and the level inclusion filter;
and a positive limit bounds the count. -/
theorem getLogs_filters (b : Bucket LogLine) (opts : GetLogsOptions) :
    getLogs none opts = [] ∧
    (getLogs (some b) opts).Sublist (b.map Prod.snd) ∧
    (∀ r ∈ getLogs (some b) opts,
      sinceBreak opts.since r.timestamp = false ∧
      (opts.levels ≠ [] → containsString opts.levels r.level = true)) ∧
    (0 < opts.limit → ((getLogs (some b) opts).length : Int) ≤ opts.limit) := by
  refine ⟨rfl, ?_, ?_, ?_⟩
  · have h := getLogsLoop_sublist opts ((b.map Prod.snd).reverse) 0 []
    rw [List.reverse_reverse, List.append_nil] at h
    exact h
  · exact getLogsLoop_mem opts ((b.map Prod.snd).reverse) 0 [] (by intro r hr; cases hr)
  · intro hpos
    exact getLogsLoop_len opts hpos ((b.map Prod.snd).reverse) 0 [] rfl (by omega)

/-- Witness for C2 (amended) at a concrete bucket and options. -/
theorem getLogs_filters_witness :
    sinceBreak (some ⟨50, 0⟩)
      ({ timestamp := ⟨60, 0⟩, level := "ERROR", message := "m", raw := "r",
         labels := [], streamID := "s" } : LogLine).timestamp = false ∧
    containsString ["ERROR"]
      ({ timestamp := ⟨60, 0⟩, level := "ERROR", message := "m", raw := "r",
         labels := [], streamID := "s" } : LogLine).level = true ∧
    ((getLogs
        (some [(rfc3339NanoKey ⟨60, 0⟩,
          { timestamp := ⟨60, 0⟩, level := "ERROR", message := "m", raw := "r",
            labels := [], streamID := "s" })])
        { limit := 5, since := some ⟨50, 0⟩, levels := ["ERROR"] }).length : Int) ≤
      ({ limit := 5, since := some ⟨50, 0⟩, levels := ["ERROR"] } : GetLogsOptions).limit :=
  ⟨((getLogs_filters
      [(rfc3339NanoKey ⟨60, 0⟩,
        { timestamp := ⟨60, 0⟩, level := "ERROR", message := "m", raw := "r",
          labels := [], streamID := "s" })]
      { limit := 5, since := some ⟨50, 0⟩, levels := ["ERROR"] }).2.2.1 _ (by decide)).1,
   ((getLogs_filters
      [(rfc3339NanoKey ⟨60, 0⟩,
        { timestamp := ⟨60, 0⟩, level := "ERROR", message := "m", raw := "r",
          labels := [], streamID := "s" })]
      { limit := 5, since := some ⟨50, 0⟩, levels := ["ERROR"] }).2.2.1 _ (by decide)).2
      (by decide),
   (getLogs_filters
      [(rfc3339NanoKey ⟨60, 0⟩,
        { timestamp := ⟨60, 0⟩, level := "ERROR", message := "m", raw := "r",
          labels := [], streamID := "s" })]
      { limit := 5, since := some ⟨50, 0⟩, levels := ["ERROR"] }).2.2.2 (by decide)⟩

/-- C7: GetContext on a stream id with no stored context record returns the
freshly initialized empty context — that stream's id, an empty analysis
sequence, zero total_logs and zero error_count — rather than failing (the
operation is total in the embedding; the missing-id branch is the deliberate
first-contact default, not an error path). -/
theorem getContext_missing_default (tbl : List (String × StreamContext)) (id : String)
    (now : GoTime) (h : lookupAssoc tbl id = none) :
    (getContext tbl id now).streamID = id ∧
    (getContext tbl id now).analyses = [] ∧
    (getContext tbl id now).totalLogs = 0 ∧
    (getContext tbl id now).errorCount = 0 := by
  unfold getContext
  rw [h]
  exact ⟨rfl, rfl, rfl, rfl⟩

/-- Witness for C7 on the empty context table. -/
theorem getContext_missing_default_witness :
    (getContext [] "s9" ⟨7, 0⟩).streamID = "s9" ∧
    (getContext [] "s9" ⟨7, 0⟩).analyses = [] ∧
    (getContext [] "s9" ⟨7, 0⟩).totalLogs = 0 ∧
    (getContext [] "s9" ⟨7, 0⟩).errorCount = 0 :=
  getContext_missing_default [] "s9" ⟨7, 0⟩ rfl

/-- C8 (code bug): the resolve handler only guards `index >= len(Analyses)`.
A request with `analysis_index = -1` on a stream holding one analysis passes
that guard, reaches `ctx.Analyses[-1]` and panics — the request aborts with
no structured client error, contrary to the claim — while the stored context
is indeed left unchanged. -/
theorem handleResolve_negative_index_panics :
    handleResolve
      [("s", { streamID := "s", firstSeen := ⟨0, 0⟩, lastSeen := ⟨0, 0⟩,
               analyses := [{ timestamp := ⟨1, 0⟩, summary := "sum", rootCause := "rc",
                              severity := "P2", resolved := false, resolutionNote := "" }],
               patterns := { commonErrors := [], errorRate := 0 },
               totalLogs := 0, errorCount := 0 })]
      "s" (-1) "fixed" ⟨9, 9⟩ =
    (.panicked,
      [("s", { streamID := "s", firstSeen := ⟨0, 0⟩, lastSeen := ⟨0, 0⟩,
               analyses := [{ timestamp := ⟨1, 0⟩, summary := "sum", rootCause := "rc",
                              severity := "P2", resolved := false, resolutionNote := "" }],
               patterns := { commonErrors := [], errorRate := 0 },
               totalLogs := 0, errorCount := 0 })]) := by
  decide

/-! GetAnalysisHistory lemmas. -/

theorem pfx_not_lt : ∀ p k, isPfxOf p k = true → bytesLt k p = false
  | [], [], _ => rfl
  | [], _ :: _, _ => rfl
  | _ :: _, [], h => by simp [isPfxOf] at h
  | a :: as, b :: bs, h => by
    simp only [isPfxOf] at h
    by_cases hab : a = b
    · rw [if_pos hab] at h
      subst hab
      simp [bytesLt, pfx_not_lt as bs h]
    · rw [if_neg hab] at h
      exact absurd h (by simp)

theorem pfx_upward : ∀ p k1 k2, isPfxOf p k2 = true → bytesLt k1 p = false →
    bytesLt k1 k2 = true → isPfxOf p k1 = true
  | [], _, _, _, _, _ => rfl
  | _ :: _, _, [], h2, _, _ => by simp [isPfxOf] at h2
  | a :: as, [], b :: bs, _, hn, _ => by simp [bytesLt] at hn
  | a :: as, c :: k1, b :: bs, h2, hn, hlt => by
    simp only [isPfxOf] at h2 ⊢
    by_cases hab : a = b
    · rw [if_pos hab] at h2
      subst hab
      simp only [bytesLt] at hn hlt
      by_cases hca : c < a
      · rw [if_pos hca] at hn
        exact absurd hn (by simp)
      · rw [if_neg hca] at hn hlt
        by_cases hac : a < c
        · rw [if_pos hac] at hlt
          exact absurd hlt (by simp)
        · rw [if_neg hac] at hn hlt
          have hca2 : a = c := by omega
          rw [if_pos hca2]
          exact pfx_upward as k1 bs h2 hn hlt
    · rw [if_neg hab] at h2
      exact absurd h2 (by simp)

theorem historyLoop_zero (pfx : List Nat) :
    ∀ (t : Bucket Analysis) (count : Nat),
      historyLoop pfx 0 t count = (t.takeWhile (fun e => isPfxOf pfx e.1)).map Prod.snd
  | [], _ => rfl
  | e :: rest, count => by
    simp only [historyLoop, List.takeWhile_cons]
    by_cases h : isPfxOf pfx e.1 = true
    · rw [if_pos h, if_pos h, if_neg (by simp), historyLoop_zero pfx rest (count + 1)]
      rfl
    · rw [if_neg h, if_neg h]
      rfl

theorem dropWhile_ge (pfx : List Nat) :
    ∀ t : Bucket Analysis, SortedB t →
      ∀ e ∈ t.dropWhile (fun x => bytesLt x.1 pfx), bytesLt e.1 pfx = false
  | [], _, e, he => by simp [List.dropWhile] at he
  | x :: rest, hs, e, he => by
    rcases List.pairwise_cons.mp hs with ⟨hrel, hrest⟩
    rw [List.dropWhile_cons] at he
    by_cases hq : bytesLt x.1 pfx = true
    · rw [if_pos hq] at he
      exact dropWhile_ge pfx rest hrest e he
    · rw [if_neg hq] at he
      rcases List.mem_cons.mp he with he | he
      · subst he
        exact Bool.eq_false_iff.mpr hq
      · cases hbe : bytesLt e.1 pfx with
        | false => rfl
        | true => exact absurd (bytesLt_trans _ _ _ (hrel e he) hbe) hq

theorem filter_dropWhile_eq (pfx : List Nat) :
    ∀ t : Bucket Analysis,
      t.filter (fun e => isPfxOf pfx e.1) =
        (t.dropWhile (fun x => bytesLt x.1 pfx)).filter (fun e => isPfxOf pfx e.1)
  | [] => rfl
  | x :: rest => by
    rw [List.dropWhile_cons]
    by_cases hq : bytesLt x.1 pfx = true
    · rw [if_pos hq, List.filter_cons]
      have hnp : ¬ isPfxOf pfx x.1 = true := by
        intro hp
        rw [pfx_not_lt pfx x.1 hp] at hq
        exact Bool.false_ne_true hq
      rw [if_neg hnp]
      exact filter_dropWhile_eq pfx rest
    · rw [if_neg hq]

theorem takeWhile_eq_filter_of_sorted (pfx : List Nat) :
    ∀ t : Bucket Analysis, SortedB t → (∀ e ∈ t, bytesLt e.1 pfx = false) →
      t.takeWhile (fun e => isPfxOf pfx e.1) = t.filter (fun e => isPfxOf pfx e.1)
  | [], _, _ => rfl
  | x :: rest, hs, hge => by
    rcases List.pairwise_cons.mp hs with ⟨hrel, hrest⟩
    rw [List.takeWhile_cons, List.filter_cons]
    by_cases h : isPfxOf pfx x.1 = true
    · rw [if_pos h, if_pos h,
        takeWhile_eq_filter_of_sorted pfx rest hrest
          (fun e he => hge e (List.mem_cons_of_mem _ he))]
    · rw [if_neg h, if_neg h]
      have hnone : ∀ e ∈ rest, ¬ isPfxOf pfx e.1 = true := by
        intro e he hpe
        exact h (pfx_upward pfx x.1 e.1 hpe (hge x (List.mem_cons_self _ _)) (hrel e he))
      rw [List.filter_eq_nil_iff.mpr hnone]

/-- C10 counterexample: store one analysis for stream `file:/x`, then query
the history of stream `file`.  The analysis key `file:/x:<ts>` carries the
prefix `file:`, so the prefix scan returns it inside `file`'s history even
though its StreamID is not `file`. -/
theorem analysisHistory_prefix_collision :
    (getAnalysisHistory
      (storeAnalysis [] { timestamp := ⟨5, 0⟩, streamID := "file:/x", summary := "sum",
                          rootCause := "rc", severity := "P2", fixes := [], context := "" })
      "file" 0).map Analysis.streamID = ["file:/x"] := by
  decide

/-- C10 (amended): on a sorted analysis bucket, `GetAnalysisHistory(s, 0)`
returns exactly the stored analyses whose key carries the byte prefix
`s + ":"` — that is, analyses keyed under `s` itself and also those of every
stream whose id extends `s + ":"` (stream ids contain the `:` separator, so
the prefix scan does not isolate `s`). -/
theorem getAnalysisHistory_zero_filter (t : Bucket Analysis) (id : String) (hs : SortedB t) :
    getAnalysisHistory t id 0 =
      (t.filter (fun e => isPfxOf (strBytes id ++ [58]) e.1)).map Prod.snd := by
  unfold getAnalysisHistory
  rw [historyLoop_zero, filter_dropWhile_eq]
  congr 1
  exact takeWhile_eq_filter_of_sorted _ _
    (hs.sublist (List.dropWhile_sublist _)) (dropWhile_ge _ t hs)

/-- Witness for C10 (amended) on a concrete one-entry bucket. -/
theorem getAnalysisHistory_zero_filter_witness :
    getAnalysisHistory
      [(analysisKey { timestamp := ⟨5, 0⟩, streamID := "file:/x", summary := "sum",
                      rootCause := "rc", severity := "P2", fixes := [], context := "" },
        { timestamp := ⟨5, 0⟩, streamID := "file:/x", summary := "sum",
          rootCause := "rc", severity := "P2", fixes := [], context := "" })]
      "file" 0 =
    ([(analysisKey { timestamp := ⟨5, 0⟩, streamID := "file:/x", summary := "sum",
                     rootCause := "rc", severity := "P2", fixes := [], context := "" },
        { timestamp := ⟨5, 0⟩, streamID := "file:/x", summary := "sum",
          rootCause := "rc", severity := "P2", fixes := [], context := "" })].filter
        (fun e => isPfxOf (strBytes "file" ++ [58]) e.1)).map Prod.snd :=
  getAnalysisHistory_zero_filter _ "file" (by decide)

/-! Pattern-scoring lemmas. -/

theorem foldl_count_aux {α : Type} (q : α → Bool) :
    ∀ (l : List α) (n : Nat),
      l.foldl (fun acc kw => if q kw then acc + 1 else acc) n = n + l.countP q
  | [], n => by simp
  | x :: xs, n => by
    simp only [List.foldl_cons, List.countP_cons]
    by_cases h : q x = true
    · rw [if_pos h, foldl_count_aux q xs (n + 1), if_pos h]
      omega
    · rw [if_neg h, foldl_count_aux q xs n, if_neg h]
      omega

theorem patScore_eq_countP (msgs : List String) (p : ErrorPattern) :
    patScore msgs p = p.keywords.countP (fun kw => keywordHits msgs kw) := by
  unfold patScore keywordHits
  rw [foldl_count_aux]
  omega

theorem selectLoop_split (msgs : List String) :
    ∀ (ps : List ErrorPattern) (mx : Nat) (acc : Option ErrorPattern),
      (selectLoop msgs ps mx acc = acc ∧ ∀ p ∈ ps, patScore msgs p ≤ mx) ∨
      (∃ l1 p l2, ps = l1 ++ p :: l2 ∧
        selectLoop msgs ps mx acc = some p ∧
        mx < patScore msgs p ∧
        (∀ q ∈ l1, patScore msgs q < patScore msgs p) ∧
        (∀ q ∈ l2, patScore msgs q ≤ patScore msgs p))
  | [], _, _ => Or.inl ⟨rfl, by intro p hp; cases hp⟩
  | p :: rest, mx, acc => by
    simp only [selectLoop]
    by_cases h : patScore msgs p > mx
    · rw [if_pos h]
      rcases selectLoop_split msgs rest (patScore msgs p) (some p) with
        ⟨heq, hall⟩ | ⟨l1, q, l2, hsplit, heq, hgt, hlt1, hle2⟩
      · refine Or.inr ⟨[], p, rest, rfl, heq, h, ?_, ?_⟩
        · intro q hq; cases hq
        · intro q hq; exact hall q hq
      · refine Or.inr ⟨p :: l1, q, l2, by rw [hsplit]; rfl, heq, lt_trans h hgt, ?_, hle2⟩
        intro r hr
        rcases List.mem_cons.mp hr with hr | hr
        · subst hr; exact hgt
        · exact hlt1 r hr
    · rw [if_neg h]
      rcases selectLoop_split msgs rest mx acc with
        ⟨heq, hall⟩ | ⟨l1, q, l2, hsplit, heq, hgt, hlt1, hle2⟩
      · refine Or.inl ⟨heq, ?_⟩
        intro r hr
        rcases List.mem_cons.mp hr with hr | hr
        · subst hr; omega
        · exact hall r hr
      · refine Or.inr ⟨p :: l1, q, l2, by rw [hsplit]; rfl, heq, hgt, ?_, hle2⟩
        intro r hr
        rcases List.mem_cons.mp hr with hr | hr
        · subst hr; omega
        · exact hlt1 r hr

/-- C5: for every configured pattern list and every batch of ERROR/FATAL
messages, a pattern's score counts exactly the keywords that appear
(lowercased, as a substring) in at least one message — each keyword adding at
most one regardless of how many messages match; the selected pattern is the
strictly-highest scorer with ties keeping the earliest pattern (everything
before it scores strictly less, everything after at most as much), and no
pattern is selected exactly when every score is zero. -/
theorem patternScoring (pats : List ErrorPattern) (msgs : List String) :
    (∀ p ∈ pats, patScore msgs p = p.keywords.countP (fun kw => keywordHits msgs kw) ∧
      patScore msgs p ≤ p.keywords.length) ∧
    (selectPattern pats msgs = none ↔ ∀ p ∈ pats, patScore msgs p = 0) ∧
    (∀ p, selectPattern pats msgs = some p →
      0 < patScore msgs p ∧
      ∃ l1 l2, pats = l1 ++ p :: l2 ∧
        (∀ q ∈ l1, patScore msgs q < patScore msgs p) ∧
        (∀ q ∈ l2, patScore msgs q ≤ patScore msgs p)) := by
  refine ⟨?_, ?_, ?_⟩
  · intro p _
    exact ⟨patScore_eq_countP msgs p,
      by rw [patScore_eq_countP]; exact List.countP_le_length _⟩
  · constructor
    · intro hnone p hp
      unfold selectPattern at hnone
      rcases selectLoop_split msgs pats 0 none with ⟨_, hall⟩ | ⟨_, q, _, _, heq, _, _, _⟩
      · have := hall p hp
        omega
      · exact Option.noConfusion (hnone.symm.trans heq)
    · intro hzero
      unfold selectPattern
      rcases selectLoop_split msgs pats 0 none with ⟨heq, _⟩ | ⟨l1, q, l2, hsplit, _, hgt, _, _⟩
      · exact heq
      · have hq : q ∈ pats := by
          rw [hsplit]
          exact List.mem_append_right _ (List.mem_cons_self _ _)
        rw [hzero q hq] at hgt
        omega
  · intro p hp
    unfold selectPattern at hp
    rcases selectLoop_split msgs pats 0 none with ⟨heq, _⟩ | ⟨l1, q, l2, hsplit, heq, hgt, hlt1, hle2⟩
    · exact Option.noConfusion (hp.symm.trans heq)
    · have hqp : q = p := Option.some.inj (heq.symm.trans hp)
      subst hqp
      exact ⟨hgt, l1, l2, hsplit, hlt1, hle2⟩

/-- Witness for C5 on the configured pattern table and one connection-refused
message. -/
theorem patternScoring_witness :
    patScore ["connection refused"] connectivityPattern =
      connectivityPattern.keywords.countP (fun kw => keywordHits ["connection refused"] kw) ∧
    0 < patScore ["connection refused"] connectivityPattern :=
  ⟨((patternScoring defaultPatterns ["connection refused"]).1 connectivityPattern
      (by decide)).1,
   ((patternScoring defaultPatterns ["connection refused"]).2.2 connectivityPattern
      (by decide)).1⟩

/-! Severity lemmas. -/

theorem fallbackAnalyze_severity (pats : List ErrorPattern) (logs : List LogLine)
    (ctx : StreamContext) (enum : List (String × Nat)) :
    (fallbackAnalyze pats logs ctx enum).severity =
      match selectPattern pats (errorMsgs logs) with
      | some p => overrideSeverity p.severity
          (countSeverity (fatalCountOf logs) (errorCountOf logs) (warnCountOf logs))
      | none => countSeverity (fatalCountOf logs) (errorCountOf logs) (warnCountOf logs) := by
  cases h : selectPattern pats (errorMsgs logs) with
  | some p => simp [fallbackAnalyze, h]
  | none =>
    simp only [fallbackAnalyze, h]
    split <;> rfl

theorem patScore_pos_ne_nil (msgs : List String) (p : ErrorPattern)
    (h : 0 < patScore msgs p) : msgs ≠ [] := by
  intro he
  subst he
  rw [patScore_eq_countP] at h
  have h0 : p.keywords.countP (fun kw => keywordHits [] kw) = 0 :=
    List.countP_eq_zero.mpr (by intro kw _; simp [keywordHits])
  omega

theorem errorMsgs_counts : ∀ logs : List LogLine, errorMsgs logs ≠ [] →
    0 < errorCountOf logs ∨ 0 < fatalCountOf logs
  | [], h => absurd rfl h
  | l :: rest, h => by
    by_cases hE : l.level = "ERROR"
    · left
      simp [errorCountOf, List.countP_cons, hE]
    · by_cases hF : l.level = "FATAL"
      · right
        simp [fatalCountOf, List.countP_cons, hF]
      · have hskip : errorMsgs (l :: rest) = errorMsgs rest := by
          simp [errorMsgs, List.filterMap_cons, hE, hF]
        rw [hskip] at h
        rcases errorMsgs_counts rest h with h1 | h1
        · left
          simp only [errorCountOf, List.countP_cons, hE]
          simp only [errorCountOf] at h1
          omega
        · right
          simp only [fatalCountOf, List.countP_cons, hF]
          simp only [fatalCountOf] at h1
          omega

theorem countSeverity_cases (f e w : Nat) (h : 0 < e ∨ 0 < f) :
    countSeverity f e w = "P0" ∨ countSeverity f e w = "P1" ∨ countSeverity f e w = "P2" := by
  unfold countSeverity
  split_ifs <;>
    first
      | (left; rfl)
      | (right; left; rfl)
      | (right; right; rfl)
      | omega

theorem override_props (ps bs : String)
    (hp : ps = "P0" ∨ ps = "P1" ∨ ps = "P2" ∨ ps = "P3")
    (hb : bs = "P0" ∨ bs = "P1" ∨ bs = "P2") :
    overrideSeverity ps bs = maxSev bs ps ∧
    sevRank (overrideSeverity ps bs) ≤ sevRank bs ∧
    sevRank (overrideSeverity ps bs) ≤ sevRank ps := by
  rcases hp with rfl | rfl | rfl | rfl <;> rcases hb with rfl | rfl | rfl <;> decide

/-- C4: the fallback severity is the count-derived baseline (FATAL present
gives P0; else more than 50 ERRORs P0; more than 10 P1; any P2; else more
than 20 WARNs P2; else P3), escalated — never de-escalated — to the matched
pattern's baseline severity under P0 > P1 > P2 > P3: with well-formed pattern
severities the result equals the max of the two, so it is never below the
count baseline nor, when a pattern matched, below that pattern's severity. -/
theorem severityDerivation (pats : List ErrorPattern) (logs : List LogLine)
    (ctx : StreamContext) (enum : List (String × Nat))
    (hwf : ∀ p ∈ pats,
      p.severity = "P0" ∨ p.severity = "P1" ∨ p.severity = "P2" ∨ p.severity = "P3") :
    (selectPattern pats (errorMsgs logs) = none →
      (fallbackAnalyze pats logs ctx enum).severity =
        countSeverity (fatalCountOf logs) (errorCountOf logs) (warnCountOf logs)) ∧
    (∀ p, selectPattern pats (errorMsgs logs) = some p →
      (fallbackAnalyze pats logs ctx enum).severity =
        maxSev (countSeverity (fatalCountOf logs) (errorCountOf logs) (warnCountOf logs))
          p.severity ∧
      sevRank (fallbackAnalyze pats logs ctx enum).severity ≤
        sevRank (countSeverity (fatalCountOf logs) (errorCountOf logs) (warnCountOf logs)) ∧
      sevRank (fallbackAnalyze pats logs ctx enum).severity ≤ sevRank p.severity) := by
  constructor
  · intro h
    rw [fallbackAnalyze_severity, h]
  · intro p h
    rw [fallbackAnalyze_severity, h]
    have hmem : p ∈ pats ∧ 0 < patScore (errorMsgs logs) p := by
      unfold selectPattern at h
      rcases selectLoop_split (errorMsgs logs) pats 0 none with
        ⟨heq, _⟩ | ⟨l1, q, l2, hsplit, heq, hgt, _, _⟩
      · exact Option.noConfusion (h.symm.trans heq)
      · have hqp : q = p := Option.some.inj (heq.symm.trans h)
        subst hqp
        exact ⟨by rw [hsplit]; exact List.mem_append_right _ (List.mem_cons_self _ _), hgt⟩
    have hb := countSeverity_cases (fatalCountOf logs) (errorCountOf logs) (warnCountOf logs)
      (errorMsgs_counts logs (patScore_pos_ne_nil _ p hmem.2))
    exact override_props p.severity _ (hwf p hmem.1) hb

/-- Witness for C4: one connection-refused ERROR line against the configured
patterns (baseline P2, connectivity pattern P1, result P1). -/
theorem severityDerivation_witness :
    (fallbackAnalyze defaultPatterns
        [{ timestamp := ⟨0, 0⟩, level := "ERROR", message := "connection refused", raw := "r",
           labels := [], streamID := "s" }]
        { streamID := "s", firstSeen := ⟨0, 0⟩, lastSeen := ⟨0, 0⟩, analyses := [],
          patterns := { commonErrors := [], errorRate := 0 }, totalLogs := 0, errorCount := 0 }
        []).severity =
      maxSev
        (countSeverity
          (fatalCountOf [{ timestamp := ⟨0, 0⟩, level := "ERROR", message := "connection refused",
                           raw := "r", labels := [], streamID := "s" }])
          (errorCountOf [{ timestamp := ⟨0, 0⟩, level := "ERROR", message := "connection refused",
                           raw := "r", labels := [], streamID := "s" }])
          (warnCountOf [{ timestamp := ⟨0, 0⟩, level := "ERROR", message := "connection refused",
                          raw := "r", labels := [], streamID := "s" }]))
        connectivityPattern.severity :=
  ((severityDerivation defaultPatterns
      [{ timestamp := ⟨0, 0⟩, level := "ERROR", message := "connection refused", raw := "r",
         labels := [], streamID := "s" }]
      { streamID := "s", firstSeen := ⟨0, 0⟩, lastSeen := ⟨0, 0⟩, analyses := [],
        patterns := { commonErrors := [], errorRate := 0 }, totalLogs := 0, errorCount := 0 }
      [] (by decide)).2 connectivityPattern (by decide)).1

/-- C3 counterexample: two identical `ERROR alpha beta` lines, no pattern
matches, and the words `alpha` and `beta` tie at frequency 2.  Both listed
enumerations are valid orders of the `wordCount` map content (Go map
iteration order is unspecified and randomized between runs), yet they yield
different Analyses: the tie is broken by enumeration order, not first-seen
order, so the Pattern Classifier is not deterministic as claimed. -/
theorem fallbackDeterminism_counterexample :
    List.Perm [("alpha", 2), ("beta", 2)]
      (wordCounts (errorMsgs
        [{ timestamp := ⟨0, 0⟩, level := "ERROR", message := "alpha beta", raw := "alpha beta",
           labels := [], streamID := "s" },
         { timestamp := ⟨0, 0⟩, level := "ERROR", message := "alpha beta", raw := "alpha beta",
           labels := [], streamID := "s" }])) ∧
    List.Perm [("beta", 2), ("alpha", 2)]
      (wordCounts (errorMsgs
        [{ timestamp := ⟨0, 0⟩, level := "ERROR", message := "alpha beta", raw := "alpha beta",
           labels := [], streamID := "s" },
         { timestamp := ⟨0, 0⟩, level := "ERROR", message := "alpha beta", raw := "alpha beta",
           labels := [], streamID := "s" }])) ∧
    fallbackAnalyze defaultPatterns
        [{ timestamp := ⟨0, 0⟩, level := "ERROR", message := "alpha beta", raw := "alpha beta",
           labels := [], streamID := "s" },
         { timestamp := ⟨0, 0⟩, level := "ERROR", message := "alpha beta", raw := "alpha beta",
           labels := [], streamID := "s" }]
        { streamID := "s", firstSeen := ⟨0, 0⟩, lastSeen := ⟨0, 0⟩, analyses := [],
          patterns := { commonErrors := [], errorRate := 0 }, totalLogs := 0, errorCount := 0 }
        [("alpha", 2), ("beta", 2)] ≠
      fallbackAnalyze defaultPatterns
        [{ timestamp := ⟨0, 0⟩, level := "ERROR", message := "alpha beta", raw := "alpha beta",
           labels := [], streamID := "s" },
         { timestamp := ⟨0, 0⟩, level := "ERROR", message := "alpha beta", raw := "alpha beta",
           labels := [], streamID := "s" }]
        { streamID := "s", firstSeen := ⟨0, 0⟩, lastSeen := ⟨0, 0⟩, analyses := [],
          patterns := { commonErrors := [], errorRate := 0 }, totalLogs := 0, errorCount := 0 }
        [("beta", 2), ("alpha", 2)] := by
  decide

/-- C3 (amended): the Pattern Classifier is deterministic up to the
enumeration order of the `wordCount` map.  For any two valid enumerations of
the same input, the timestamp, stream id, severity, fixes and context-note
fields coincide — only the summary and root-cause wording can differ, and
only in the generic (no pattern matched) branch through the order of
tied-frequency extracted words; when a pattern matched, the whole Analysis is
identical. -/
theorem fallbackDeterminism (pats : List ErrorPattern) (logs : List LogLine)
    (ctx : StreamContext) (e1 e2 : List (String × Nat))
    (_hp1 : List.Perm e1 (wordCounts (errorMsgs logs)))
    (_hp2 : List.Perm e2 (wordCounts (errorMsgs logs))) :
    (fallbackAnalyze pats logs ctx e1).timestamp = (fallbackAnalyze pats logs ctx e2).timestamp ∧
    (fallbackAnalyze pats logs ctx e1).streamID = (fallbackAnalyze pats logs ctx e2).streamID ∧
    (fallbackAnalyze pats logs ctx e1).severity = (fallbackAnalyze pats logs ctx e2).severity ∧
    (fallbackAnalyze pats logs ctx e1).fixes = (fallbackAnalyze pats logs ctx e2).fixes ∧
    (fallbackAnalyze pats logs ctx e1).context = (fallbackAnalyze pats logs ctx e2).context ∧
    (∀ p, selectPattern pats (errorMsgs logs) = some p →
      fallbackAnalyze pats logs ctx e1 = fallbackAnalyze pats logs ctx e2) := by
  cases h : selectPattern pats (errorMsgs logs) with
  | some p =>
    have he : fallbackAnalyze pats logs ctx e1 = fallbackAnalyze pats logs ctx e2 := by
      simp [fallbackAnalyze, h]
    rw [he]
    exact ⟨rfl, rfl, rfl, rfl, rfl, fun _ _ => rfl⟩
  | none =>
    refine ⟨?_, ?_, ?_, ?_, ?_, ?_⟩
    · simp only [fallbackAnalyze, h]
      repeat' split
      all_goals rfl
    · simp only [fallbackAnalyze, h]
      repeat' split
      all_goals rfl
    · simp only [fallbackAnalyze, h]
      repeat' split
      all_goals rfl
    · simp only [fallbackAnalyze, h]
      repeat' split
      all_goals rfl
    · simp only [fallbackAnalyze, h]
      repeat' split
      all_goals rfl
    · intro p hp
      exact Option.noConfusion hp

/-- Witness for C3 (amended) at the tied-words input and two enumerations. -/
theorem fallbackDeterminism_witness :
    (fallbackAnalyze defaultPatterns
        [{ timestamp := ⟨0, 0⟩, level := "ERROR", message := "alpha beta", raw := "alpha beta",
           labels := [], streamID := "s" }]
        { streamID := "s", firstSeen := ⟨0, 0⟩, lastSeen := ⟨0, 0⟩, analyses := [],
          patterns := { commonErrors := [], errorRate := 0 }, totalLogs := 0, errorCount := 0 }
        [("alpha", 1), ("beta", 1)]).severity =
    (fallbackAnalyze defaultPatterns
        [{ timestamp := ⟨0, 0⟩, level := "ERROR", message := "alpha beta", raw := "alpha beta",
           labels := [], streamID := "s" }]
        { streamID := "s", firstSeen := ⟨0, 0⟩, lastSeen := ⟨0, 0⟩, analyses := [],
          patterns := { commonErrors := [], errorRate := 0 }, totalLogs := 0, errorCount := 0 }
        [("beta", 1), ("alpha", 1)]).severity :=
  (fallbackDeterminism defaultPatterns
    [{ timestamp := ⟨0, 0⟩, level := "ERROR", message := "alpha beta", raw := "alpha beta",
       labels := [], streamID := "s" }]
    { streamID := "s", firstSeen := ⟨0, 0⟩, lastSeen := ⟨0, 0⟩, analyses := [],
      patterns := { commonErrors := [], errorRate := 0 }, totalLogs := 0, errorCount := 0 }
    [("alpha", 1), ("beta", 1)] [("beta", 1), ("alpha", 1)]
    (by decide) (by decide)).2.2.1

/-- C6: `Analyzer.Analyze` fails exactly on an empty record list (the
EmptyInput case): loading the stream context cannot fail the call in the
embedding (a missing context defaults), and for every non-empty batch — with
or without a configured external classifier, and whether that classifier
succeeds or fails — the call returns an Analysis stamped with the given
stream id and the current time. -/
theorem analyzeEmptyInput (llm : LlmBehaviour) (pats : List ErrorPattern)
    (tbl : List (String × StreamContext)) (sid : String) (logs : List LogLine)
    (enum : List (String × Nat)) (now : GoTime) :
    (logs = [] → analyzerAnalyze llm pats tbl sid logs enum now = .error "no logs to analyze") ∧
    (logs ≠ [] → ∃ a, analyzerAnalyze llm pats tbl sid logs enum now = .ok a ∧
      a.streamID = sid ∧ a.timestamp = now) := by
  constructor
  · intro h
    subst h
    rfl
  · intro h
    cases logs with
    | nil => exact absurd rfl h
    | cons l rest =>
      rcases llm with _ | e
      · exact ⟨_, rfl, rfl, rfl⟩
      · rcases e with u | a
        · exact ⟨_, rfl, rfl, rfl⟩
        · exact ⟨_, rfl, rfl, rfl⟩

/-- Witness for C6: the empty batch errors; a one-line batch with no external
classifier succeeds stamped with the stream id. -/
theorem analyzeEmptyInput_witness :
    analyzerAnalyze none defaultPatterns [] "s1" [] [] ⟨3, 0⟩ = .error "no logs to analyze" ∧
    ∃ a, analyzerAnalyze none defaultPatterns [] "s1"
        [{ timestamp := ⟨0, 0⟩, level := "INFO", message := "ok", raw := "ok", labels := [],
           streamID := "s1" }] [] ⟨3, 0⟩ = .ok a ∧
      a.streamID = "s1" ∧ a.timestamp = ⟨3, 0⟩ :=
  ⟨(analyzeEmptyInput none defaultPatterns [] "s1" [] [] ⟨3, 0⟩).1 rfl,
   (analyzeEmptyInput none defaultPatterns [] "s1"
      [{ timestamp := ⟨0, 0⟩, level := "INFO", message := "ok", raw := "ok", labels := [],
         streamID := "s1" }] [] ⟨3, 0⟩).2 (by decide)⟩

/-- C9 (code bug): with two subscribers registered on `s2`, an all-successful
publish delivers exactly one copy to each, and after unregistering one only
the other receives — but when the write to the first subscriber fails, the
result is `hubBlocked`: `Run` sends on its own unbuffered `unregister`
channel, which only `Run` itself receives, so the hub goroutine blocks
forever; the second subscriber receives nothing for that publish and the
failed subscriber is never unregistered, contrary to the claim that a
delivery failure affects only the failing subscriber. -/
theorem hubBroadcast_failure_blocks :
    broadcastCase (hubRegister (hubRegister [] "s2" 1) "s2" 2) "s2" (fun _ => true) =
      .delivered [1, 2] ∧
    broadcastCase (hubUnregister (hubRegister (hubRegister [] "s2" 1) "s2" 2) "s2" 1) "s2"
      (fun _ => true) = .delivered [2] ∧
    broadcastCase (hubRegister (hubRegister [] "s2" 1) "s2" 2) "s2" (fun c => c != 1) =
      .hubBlocked [] 1 := by
  decide

end LogVoyant
